import Mathlib

/-!
Verification of the search / provider-normalization layer of the ResPart
application. The definitions below are shallow embeddings of the
JavaScript source: the provider adapter module (functions
openAlexAbstractToText, normalizeAuthorsOpenAlex, normalizeAuthorsS2,
pickBestOpenAlexPdf and the response-normalization bodies of
searchOpenAlex and searchSemanticScholar) and the orchestration layer of
App.jsx (readCache, writeCache, searchPapers, prefetchMore and the
automatic prefetch trigger effect). JavaScript numbers are modelled as
integers; every value the claims quantify over is integer-valued.
-/

/-- A JavaScript (JSON-like) value as it flows through the adapters.
JavaScript distinguishes undefined from null; both are modelled. Numbers
are modelled as integers (the source only ever sorts and compares
positions, years and counts, all integer-valued in the claims). -/
inductive JsVal : Type where
  | undef : JsVal
  | null : JsVal
  | bool (b : Bool) : JsVal
  | num (n : Int) : JsVal
  | str (s : String) : JsVal
  | arr (elems : List JsVal) : JsVal
  | obj (fields : List (String × JsVal)) : JsVal

/-- JavaScript truthiness: undefined, null, false, 0 and the empty string
are falsy; objects and arrays are always truthy. (NaN is not modelled.) -/
def jsTruthy : JsVal → Bool
  | JsVal.undef => false
  | JsVal.null => false
  | JsVal.bool b => b
  | JsVal.num n => n != 0
  | JsVal.str s => s != ""
  | JsVal.arr _ => true
  | JsVal.obj _ => true

/-- The JavaScript a-or-b pattern: a || b evaluates to a when a is truthy
and to b otherwise. -/
def jsOr (a b : JsVal) : JsVal := if jsTruthy a then a else b

/-- Optional-chained property access a?.k: reading a property of anything
that is not an object yields undefined (property access on primitives
yields undefined, and the optional chain guards null and undefined). -/
def jsGet (v : JsVal) (k : String) : JsVal :=
  match v with
  | JsVal.obj fs =>
    match fs.find? (fun f => f.1 == k) with
    | some f => f.2
    | none => JsVal.undef
  | _ => JsVal.undef

/-- A value is defined when it is not the JavaScript undefined. -/
def jsDefined (v : JsVal) : Prop := v ≠ JsVal.undef

/-- Whitespace for the regex class used in the source
(text.replace with the whitespace-run pattern) and for trim: space, tab,
newline, carriage return, vertical tab and form feed. The full JavaScript
class also matches Unicode space characters, which do not occur in any
claim and are not modelled. -/
def jsIsWs (c : Char) : Bool :=
  c == ' ' || c.toNat == 9 || c.toNat == 10 || c.toNat == 11 ||
    c.toNat == 12 || c.toNat == 13

/-- Collapse every maximal run of whitespace characters to a single
space, as the replace call with the global whitespace-run pattern does.
The boolean argument records whether the previous character was part of a
whitespace run. -/
def collapseWsAux : Bool → List Char → List Char
  | _, [] => []
  | prevWs, c :: cs =>
    if jsIsWs c then
      if prevWs then collapseWsAux true cs
      else ' ' :: collapseWsAux true cs
    else c :: collapseWsAux false cs

/-- String form of the whitespace-run collapse. -/
def collapseWs (s : String) : String := String.mk (collapseWsAux false s.data)

/-- JavaScript String.prototype.trim restricted to the modelled
whitespace characters. -/
def jsTrim (s : String) : String :=
  String.mk (((s.data.dropWhile jsIsWs).reverse.dropWhile jsIsWs).reverse)

/-- JavaScript String.prototype.trimEnd restricted to the modelled
whitespace characters. -/
def jsTrimEnd (s : String) : String :=
  String.mk ((s.data.reverse.dropWhile jsIsWs).reverse)

/-- JavaScript s.slice(0, n) for a nonnegative n: the first n characters. -/
def jsSlice (s : String) (n : Nat) : String := String.mk (s.data.take n)

/-- One step of the Map.set loop of openAlexAbstractToText: set key k to
value v, replacing the value in place when the key is already present
(JavaScript Map.set keeps the original insertion position) and appending
otherwise. -/
def insertPT (m : List (Int × String)) (k : Int) (v : String) : List (Int × String) :=
  if m.any (fun q => q.1 == k) then m.map (fun q => if q.1 == k then (k, v) else q)
  else m ++ [(k, v)]

/-- The numeric elements of a positions value: the source skips a
positions entry that is not an array and skips every element that is not
a number. -/
def oaNumPositions : JsVal → List Int
  | JsVal.arr xs =>
    xs.filterMap (fun x => match x with | JsVal.num n => some n | _ => none)
  | _ => []

/-- The position-to-token map built by the nested loops of
openAlexAbstractToText: for each entry of the inverted index and each
numeric position of that entry, set position to token. -/
def oaBuildMap (entries : List (String × JsVal)) : List (Int × String) :=
  entries.foldl
    (fun m e => (oaNumPositions e.2).foldl (fun m2 p => insertPT m2 p e.1) m) []

/-- Map lookup, as Map.prototype.get. -/
def findPT (m : List (Int × String)) (p : Int) : Option String :=
  (m.find? (fun q => q.1 == p)).map (fun q => q.2)

/-- Object.entries of a value when the typeof guard of
openAlexAbstractToText passes: the guard rejects every falsy value and
every non-object, and in JavaScript an array is an object whose entries
are its elements keyed by their decimal indices. -/
def jsEntriesOf : JsVal → Option (List (String × JsVal))
  | JsVal.obj fs => some fs
  | JsVal.arr xs => some ((xs.enum).map (fun ix => (toString ix.1, ix.2)))
  | _ => none

/-- The joined, whitespace-collapsed and trimmed text produced from the
entries of the inverted index: positions sorted ascending, each mapped
back to its token (the lookup always hits, the default is never used),
joined with single spaces. -/
def oaJoinedText (entries : List (String × JsVal)) : String :=
  jsTrim (collapseWs (String.intercalate " "
    ((List.insertionSort (fun a b : Int => a ≤ b) ((oaBuildMap entries).map Prod.fst)).map
      (fun p => (findPT (oaBuildMap entries) p).getD ""))))

/-- The reconstruction body of openAlexAbstractToText over the entry
list: null when no position was collected, null when the resulting text
is empty, else the text (truncation is applied by the caller). -/
def oaReconstructFromEntries (entries : List (String × JsVal)) : Option String :=
  if (List.insertionSort (fun a b : Int => a ≤ b) ((oaBuildMap entries).map Prod.fst)).length = 0
  then none
  else if oaJoinedText entries = "" then none
  else some (oaJoinedText entries)

/-- The text of openAlexAbstractToText before the final truncation step:
null for an absent or non-object input, else the reconstruction of the
entries. -/
def oaRawText (v : JsVal) : Option String :=
  match jsEntriesOf v with
  | none => none
  | some entries => oaReconstructFromEntries entries

/-- The final truncation step of openAlexAbstractToText: a text longer
than maxChars is sliced to maxChars characters, the slice is trimmed at
its end, and the ellipsis character is appended; a text at or under
maxChars is returned unchanged. -/
def oaTruncate (maxChars : Nat) (text : String) : String :=
  if maxChars < text.length then jsTrimEnd (jsSlice text maxChars) ++ "…" else text

/-- openAlexAbstractToText from the adapter module. The source gives
maxChars the default value 1200; callers in this file pass 1200
explicitly. -/
def openAlexAbstractToText (v : JsVal) (maxChars : Nat) : Option String :=
  (oaRawText v).map (oaTruncate maxChars)

/-- The pair collection described by the specification: collect all
(position, token) pairs of the inverted index, entry by entry. -/
def specCollectPairs : List (String × JsVal) → List (Int × String)
  | [] => []
  | e :: es => (oaNumPositions e.2).map (fun p => (p, e.1)) ++ specCollectPairs es

/-- Ordering of collected pairs by position. -/
def leFst (a b : Int × String) : Prop := a.1 ≤ b.1

instance : DecidableRel leFst := fun a b => inferInstanceAs (Decidable (a.1 ≤ b.1))

instance : IsTotal (Int × String) leFst := ⟨fun a b => Int.le_total a.1 b.1⟩

instance : IsTrans (Int × String) leFst := ⟨fun _ _ _ h h2 => le_trans h h2⟩

/-- The reconstruction described by the specification: sort the collected
pairs by position ascending, join the tokens with single spaces, collapse
whitespace runs, trim. -/
def specReconstruct (entries : List (String × JsVal)) : String :=
  jsTrim (collapseWs (String.intercalate " "
    ((List.insertionSort leFst (specCollectPairs entries)).map Prod.snd)))

example :
    openAlexAbstractToText
      (JsVal.obj [("deep", JsVal.arr [JsVal.num 0, JsVal.num 3]),
                  ("learning", JsVal.arr [JsVal.num 1, JsVal.num 2])]) 1200 =
      some "deep learning learning deep" := by decide

example :
    openAlexAbstractToText
      (JsVal.obj [("ab", JsVal.arr [JsVal.num 0]), ("cd", JsVal.arr [JsVal.num 1])]) 3 =
      some "ab…" := by decide

/-! ### Supporting lemmas for the abstract-reconstruction refinement -/

theorem length_dropWhile_le_self (p : Char → Bool) (l : List Char) :
    (l.dropWhile p).length ≤ l.length := by
  induction l with
  | nil => simp
  | cons c cs ih =>
    rw [List.dropWhile]
    cases p c with
    | true => exact Nat.le_succ_of_le ih
    | false => simp

theorem oaBuildMap_eq_foldl_aux (entries : List (String × JsVal)) (m0 : List (Int × String)) :
    entries.foldl
        (fun m e => (oaNumPositions e.2).foldl (fun m2 p => insertPT m2 p e.1) m) m0
      = (specCollectPairs entries).foldl (fun m q => insertPT m q.1 q.2) m0 := by
  induction entries generalizing m0 with
  | nil => simp [specCollectPairs]
  | cons e es ih =>
    rw [List.foldl_cons, specCollectPairs, List.foldl_append, List.foldl_map, ih]

theorem oaBuildMap_eq_foldl (entries : List (String × JsVal)) :
    oaBuildMap entries
      = (specCollectPairs entries).foldl (fun m q => insertPT m q.1 q.2) [] :=
  oaBuildMap_eq_foldl_aux entries []

theorem insertPT_fresh (m : List (Int × String)) (k : Int) (v : String)
    (h : ∀ q ∈ m, q.1 ≠ k) : insertPT m k v = m ++ [(k, v)] := by
  unfold insertPT
  rw [if_neg]
  simp only [List.any_eq_true, beq_iff_eq, not_exists, not_and]
  exact fun q hq => h q hq

theorem foldl_insertPT_nodup (pairs : List (Int × String)) (m : List (Int × String))
    (hnd : (pairs.map Prod.fst).Nodup)
    (hdisj : ∀ q ∈ m, ∀ r ∈ pairs, q.1 ≠ r.1) :
    pairs.foldl (fun m2 q => insertPT m2 q.1 q.2) m = m ++ pairs := by
  induction pairs generalizing m with
  | nil => simp
  | cons q qs ih =>
    rw [List.foldl_cons,
        insertPT_fresh m q.1 q.2 (fun r hr => hdisj r hr q (List.mem_cons_self q qs))]
    rw [List.map_cons, List.nodup_cons] at hnd
    rw [ih (m ++ [(q.1, q.2)]) hnd.2]
    · simp
    · intro r hr s hs
      rcases List.mem_append.mp hr with hrm | hrq
      · exact hdisj r hrm s (List.mem_cons_of_mem q hs)
      · have hrv : r = (q.1, q.2) := List.mem_singleton.mp hrq
        subst hrv
        intro hcontra
        exact hnd.1 (hcontra ▸ List.mem_map_of_mem Prod.fst hs)

theorem find_of_mem_nodup (pairs : List (Int × String)) (p : Int) (t : String)
    (hnd : (pairs.map Prod.fst).Nodup) (hm : (p, t) ∈ pairs) :
    pairs.find? (fun q => q.1 == p) = some (p, t) := by
  induction pairs with
  | nil => cases hm
  | cons q qs ih =>
    rw [List.map_cons, List.nodup_cons] at hnd
    rcases List.mem_cons.mp hm with hq | hqs
    · subst hq
      exact List.find?_cons_of_pos qs (by simp)
    · have hne : ¬ (q.1 == p) = true := by
        simp only [beq_iff_eq]
        intro hcontra
        exact hnd.1 (hcontra ▸ List.mem_map_of_mem Prod.fst hqs)
      rw [List.find?_cons_of_neg qs hne]
      exact ih hnd.2 hqs

instance : IsAntisymm Int (fun a b : Int => a ≤ b) := ⟨fun _ _ h h2 => le_antisymm h h2⟩

theorem map_fst_sortPairs (pairs : List (Int × String)) :
    (List.insertionSort leFst pairs).map Prod.fst
      = List.insertionSort (fun a b : Int => a ≤ b) (pairs.map Prod.fst) := by
  have h1 : List.Sorted (fun a b : Int => a ≤ b) ((List.insertionSort leFst pairs).map Prod.fst) :=
    List.Pairwise.map Prod.fst (fun a b h => h) (List.sorted_insertionSort leFst pairs)
  have h2 : List.Sorted (fun a b : Int => a ≤ b)
      (List.insertionSort (fun a b : Int => a ≤ b) (pairs.map Prod.fst)) :=
    List.sorted_insertionSort _ (pairs.map Prod.fst)
  have hp : List.Perm ((List.insertionSort leFst pairs).map Prod.fst)
      (List.insertionSort (fun a b : Int => a ≤ b) (pairs.map Prod.fst)) :=
    ((List.perm_insertionSort leFst pairs).map Prod.fst).trans
      (List.perm_insertionSort _ (pairs.map Prod.fst)).symm
  exact List.eq_of_perm_of_sorted hp h1 h2

theorem tokens_eq_sorted_snd (pairs : List (Int × String))
    (hnd : (pairs.map Prod.fst).Nodup) :
    (List.insertionSort (fun a b : Int => a ≤ b) (pairs.map Prod.fst)).map
        (fun p => (findPT pairs p).getD "")
      = (List.insertionSort leFst pairs).map Prod.snd := by
  rw [← map_fst_sortPairs, List.map_map]
  apply List.map_congr_left
  intro q hq
  have hqmem : q ∈ pairs := (List.perm_insertionSort leFst pairs).subset hq
  have hfind : pairs.find? (fun r => r.1 == q.1) = some (q.1, q.2) :=
    find_of_mem_nodup pairs q.1 q.2 hnd (by rw [Prod.mk.eta]; exact hqmem)
  simp [findPT, Function.comp, hfind]

theorem oaJoinedText_eq_spec (entries : List (String × JsVal))
    (hnd : ((specCollectPairs entries).map Prod.fst).Nodup) :
    oaJoinedText entries = specReconstruct entries := by
  have hmap : oaBuildMap entries = specCollectPairs entries := by
    rw [oaBuildMap_eq_foldl]
    exact foldl_insertPT_nodup (specCollectPairs entries) [] hnd (by simp)
  unfold oaJoinedText specReconstruct
  rw [hmap, tokens_eq_sorted_snd (specCollectPairs entries) hnd]

theorem oaRawText_spec (entries : List (String × JsVal))
    (hnd : ((specCollectPairs entries).map Prod.fst).Nodup) :
    oaRawText (JsVal.obj entries)
      = if specReconstruct entries = "" then none else some (specReconstruct entries) := by
  have hmap : oaBuildMap entries = specCollectPairs entries := by
    rw [oaBuildMap_eq_foldl]
    exact foldl_insertPT_nodup (specCollectPairs entries) [] hnd (by simp)
  have hraw : oaRawText (JsVal.obj entries) = oaReconstructFromEntries entries := rfl
  rw [hraw]
  by_cases hp : specCollectPairs entries = []
  · have hempty : (List.insertionSort (fun a b : Int => a ≤ b)
        ((oaBuildMap entries).map Prod.fst)).length = 0 := by
      rw [hmap, hp]
      rfl
    have hspec : specReconstruct entries = "" := by
      unfold specReconstruct
      rw [hp]
      rfl
    rw [oaReconstructFromEntries, if_pos hempty, hspec, if_pos rfl]
  · have hlen : ¬ (List.insertionSort (fun a b : Int => a ≤ b)
        ((oaBuildMap entries).map Prod.fst)).length = 0 := by
      rw [hmap]
      intro hcontra
      apply hp
      have hperm := List.perm_insertionSort (fun a b : Int => a ≤ b)
        ((specCollectPairs entries).map Prod.fst)
      have := hperm.length_eq
      rw [hcontra, List.length_map] at this
      exact List.eq_nil_of_length_eq_zero this.symm
    rw [oaReconstructFromEntries, if_neg hlen, oaJoinedText_eq_spec entries hnd]

theorem jsSlice_length_le (s : String) (n : Nat) : (jsSlice s n).length ≤ n := by
  show (s.data.take n).length ≤ n
  exact List.length_take_le n s.data

theorem jsTrimEnd_length_le (s : String) : (jsTrimEnd s).length ≤ s.length := by
  show ((s.data.reverse.dropWhile jsIsWs).reverse).length ≤ s.data.length
  rw [List.length_reverse]
  calc (s.data.reverse.dropWhile jsIsWs).length
      ≤ s.data.reverse.length := length_dropWhile_le_self jsIsWs s.data.reverse
    _ = s.data.length := List.length_reverse s.data

theorem oaReconstruct_some_ne (entries : List (String × JsVal)) (t : String)
    (h : oaReconstructFromEntries entries = some t) : t ≠ "" := by
  unfold oaReconstructFromEntries at h
  by_cases h1 : (List.insertionSort (fun a b : Int => a ≤ b)
      ((oaBuildMap entries).map Prod.fst)).length = 0
  · rw [if_pos h1] at h; cases h
  · rw [if_neg h1] at h
    by_cases h2 : oaJoinedText entries = ""
    · rw [if_pos h2] at h; cases h
    · rw [if_neg h2] at h
      have h3 : oaJoinedText entries = t := Option.some.inj h
      exact h3 ▸ h2

theorem oaRawText_some_ne (v : JsVal) (t : String) (h : oaRawText v = some t) :
    t ≠ "" := by
  unfold oaRawText at h
  split at h
  · cases h
  · exact oaReconstruct_some_ne _ t h

theorem append_ellipsis_ne (s : String) : s ++ "…" ≠ "" := by
  intro h
  have hlen := congrArg String.length h
  rw [String.length_append] at hlen
  have h1 : ("…" : String).length = 1 := rfl
  have h0 : ("" : String).length = 0 := rfl
  rw [h1, h0] at hlen
  omega

theorem oaTruncate_ne (mc : Nat) (t : String) (h : t ≠ "") : oaTruncate mc t ≠ "" := by
  unfold oaTruncate
  by_cases hlt : mc < t.length
  · rw [if_pos hlt]
    exact append_ellipsis_ne _
  · rw [if_neg hlt]
    exact h

/-! ### Claim C1: abstract reconstruction follows ascending position order -/

/-- C1: for every inverted index object in which each position maps to
exactly one token (the collected positions are pairwise distinct),
openAlexAbstractToText produces exactly the specification text: the
(position, token) pairs sorted by position ascending, tokens joined by a
single space, whitespace collapsed, trimmed (null when the text is
empty, truncated to the 1200-character default budget); the example
index mapping deep to positions 0 and 3 and learning to positions 1 and
2 reconstructs to the text deep learning learning deep, and an absent,
malformed, or empty-text input yields null. -/
theorem C1_abstract_reconstruction :
    (∀ entries : List (String × JsVal),
        ((specCollectPairs entries).map Prod.fst).Nodup →
        openAlexAbstractToText (JsVal.obj entries) 1200 =
          (if specReconstruct entries = "" then none
           else some (oaTruncate 1200 (specReconstruct entries))))
    ∧ openAlexAbstractToText
        (JsVal.obj [("deep", JsVal.arr [JsVal.num 0, JsVal.num 3]),
                    ("learning", JsVal.arr [JsVal.num 1, JsVal.num 2])]) 1200 =
        some "deep learning learning deep"
    ∧ openAlexAbstractToText JsVal.undef 1200 = none
    ∧ openAlexAbstractToText JsVal.null 1200 = none
    ∧ openAlexAbstractToText (JsVal.bool false) 1200 = none
    ∧ openAlexAbstractToText (JsVal.str "not an index") 1200 = none
    ∧ openAlexAbstractToText (JsVal.num 42) 1200 = none
    ∧ openAlexAbstractToText (JsVal.obj []) 1200 = none
    ∧ openAlexAbstractToText (JsVal.obj [("", JsVal.arr [JsVal.num 0])]) 1200 = none := by
  refine ⟨?_, by decide, by decide, by decide, by decide, by decide, by decide, by decide,
    by decide⟩
  intro entries hnd
  unfold openAlexAbstractToText
  rw [oaRawText_spec entries hnd]
  by_cases hs : specReconstruct entries = "" <;> simp [hs]

/-- Witness for C1: the distinct-positions hypothesis holds at the
example index of the claim, and the conclusion evaluates there. -/
theorem C1_abstract_reconstruction_witness :
    ((specCollectPairs [("deep", JsVal.arr [JsVal.num 0, JsVal.num 3]),
        ("learning", JsVal.arr [JsVal.num 1, JsVal.num 2])]).map Prod.fst).Nodup
    ∧ openAlexAbstractToText
        (JsVal.obj [("deep", JsVal.arr [JsVal.num 0, JsVal.num 3]),
                    ("learning", JsVal.arr [JsVal.num 1, JsVal.num 2])]) 1200 =
        (if specReconstruct [("deep", JsVal.arr [JsVal.num 0, JsVal.num 3]),
            ("learning", JsVal.arr [JsVal.num 1, JsVal.num 2])] = "" then none
         else some (oaTruncate 1200 (specReconstruct
            [("deep", JsVal.arr [JsVal.num 0, JsVal.num 3]),
             ("learning", JsVal.arr [JsVal.num 1, JsVal.num 2])]))) :=
  ⟨by decide, C1_abstract_reconstruction.1 _ (by decide)⟩

/-! ### Claim C2: truncation at the character budget -/

/-- C2 counterexample: the reconstructed text ab cd exceeds a budget of
3 characters, but the function does not return that text cut to exactly
budget length with the ellipsis appended: the cut ends in a space, the
source trims the end of the slice before appending the ellipsis, and the
result keeps only 2 of the 3 characters of the cut. -/
theorem C2_truncation_counterexample :
    oaRawText (JsVal.obj [("ab", JsVal.arr [JsVal.num 0]),
        ("cd", JsVal.arr [JsVal.num 1])]) = some "ab cd"
    ∧ 3 < ("ab cd" : String).length
    ∧ openAlexAbstractToText
        (JsVal.obj [("ab", JsVal.arr [JsVal.num 0]), ("cd", JsVal.arr [JsVal.num 1])]) 3 =
        some "ab…"
    ∧ jsSlice "ab cd" 3 ++ "…" = "ab …"
    ∧ ("ab…" : String) ≠ "ab …" :=
  ⟨by decide, by decide, by decide, by decide, by decide⟩

/-- C2 (amended): a reconstructed text longer than the budget is cut to
the budget length, trailing whitespace is removed from the cut, and the
ellipsis marker is appended, so the kept prefix has at most budget
length; a text at or under budget is returned unchanged. -/
theorem C2_truncation :
    (∀ (v : JsVal) (t : String) (mc : Nat), oaRawText v = some t → mc < t.length →
        openAlexAbstractToText v mc = some (jsTrimEnd (jsSlice t mc) ++ "…")
        ∧ (jsTrimEnd (jsSlice t mc)).length ≤ mc)
    ∧ (∀ (v : JsVal) (t : String) (mc : Nat), oaRawText v = some t → t.length ≤ mc →
        openAlexAbstractToText v mc = some t) := by
  constructor
  · intro v t mc hraw hlt
    refine ⟨?_, le_trans (jsTrimEnd_length_le (jsSlice t mc)) (jsSlice_length_le t mc)⟩
    simp [openAlexAbstractToText, hraw, oaTruncate, hlt]
  · intro v t mc hraw hle
    simp [openAlexAbstractToText, hraw, oaTruncate, Nat.not_lt.mpr hle]

/-- Witness for C2: the amended truncation evaluated at the text ab cd
and budget 3. -/
theorem C2_truncation_witness :
    openAlexAbstractToText
        (JsVal.obj [("ab", JsVal.arr [JsVal.num 0]), ("cd", JsVal.arr [JsVal.num 1])]) 3 =
      some (jsTrimEnd (jsSlice "ab cd" 3) ++ "…")
    ∧ (jsTrimEnd (jsSlice "ab cd" 3)).length ≤ 3 :=
  C2_truncation.1 _ "ab cd" 3 (by decide) (by decide)

/-! ### Claim C10: totality and overwrite semantics of the reconstruction -/

/-- C10: openAlexAbstractToText is total: for every input value and
budget it returns null or a non-empty string, never an exception;
an entry whose positions value is not an array is skipped, a position
that is not a number is skipped, and when the same position occurs under
several tokens the later entry overwrites the earlier one. -/
theorem C10_reconstruction_totality :
    (∀ (v : JsVal) (mc : Nat),
        openAlexAbstractToText v mc = none
        ∨ ∃ s, openAlexAbstractToText v mc = some s ∧ s ≠ "")
    ∧ openAlexAbstractToText
        (JsVal.obj [("alpha", JsVal.arr [JsVal.num 0]),
                    ("beta", JsVal.arr [JsVal.num 0])]) 1200 = some "beta"
    ∧ openAlexAbstractToText (JsVal.obj [("alpha", JsVal.num 3)]) 1200 = none
    ∧ openAlexAbstractToText
        (JsVal.obj [("alpha", JsVal.arr [JsVal.str "spurious", JsVal.null, JsVal.num 0]),
                    ("beta", JsVal.arr [JsVal.bool true])]) 1200 = some "alpha" := by
  refine ⟨?_, by decide, by decide, by decide⟩
  intro v mc
  cases h : oaRawText v with
  | none =>
    left
    simp [openAlexAbstractToText, h]
  | some t =>
    right
    exact ⟨oaTruncate mc t, by simp [openAlexAbstractToText, h],
      oaTruncate_ne mc t (oaRawText_some_ne v t h)⟩

/-! ### Provider normalization (adapter module, bulk response paths) -/

/-- How Array.prototype.join renders one element: strings stay, numbers
and booleans are stringified. Null and undefined render as the empty
string, and composite values recurse through their own stringification;
neither case is reachable here, since the source filters the name list
for truthiness before joining and names come from display-name fields. -/
def jsToDisplay : JsVal → String
  | JsVal.str s => s
  | JsVal.num n => toString n
  | JsVal.bool b => if b then "true" else "false"
  | JsVal.null => ""
  | JsVal.undef => ""
  | JsVal.arr _ => ""
  | JsVal.obj _ => "[object Object]"

/-- The canonical record an adapter produces. Every field is a
JavaScript value so that absence of a fallback is expressible. -/
structure NormalizedPaper : Type where
  id : JsVal
  title : JsVal
  authors : JsVal
  year : JsVal
  abstract : JsVal
  citations : JsVal
  url : JsVal
  pdfUrl : JsVal
  venue : JsVal
  topic : JsVal
  source : JsVal
  externalId : JsVal
  needsDetails : JsVal

/-- The author display names collected by normalizeAuthorsOpenAlex: the
nested display-name field of each authorship, filtered for truthiness,
capped at the first 10. -/
def oaAuthorNames (work : JsVal) : List String :=
  match jsGet work "authorships" with
  | JsVal.arr as =>
    (((as.map (fun a => jsGet (jsGet a "author") "display_name")).filter jsTruthy).take 10).map
      jsToDisplay
  | _ => []

/-- normalizeAuthorsOpenAlex from the adapter module: Unknown when the
authorships field is not a non-empty array or no truthy name survives,
else the capped names joined with comma and space. -/
def normalizeAuthorsOpenAlex (work : JsVal) : String :=
  match jsGet work "authorships" with
  | JsVal.arr as =>
    if as.isEmpty then "Unknown"
    else if (oaAuthorNames work).isEmpty then "Unknown"
    else String.intercalate ", " (oaAuthorNames work)
  | _ => "Unknown"

/-- The author display names collected by normalizeAuthorsS2. -/
def s2AuthorNames (paper : JsVal) : List String :=
  match jsGet paper "authors" with
  | JsVal.arr as =>
    (((as.map (fun a => jsGet a "name")).filter jsTruthy).take 10).map jsToDisplay
  | _ => []

/-- normalizeAuthorsS2 from the adapter module. -/
def normalizeAuthorsS2 (paper : JsVal) : String :=
  match jsGet paper "authors" with
  | JsVal.arr as =>
    if as.isEmpty then "Unknown"
    else if (s2AuthorNames paper).isEmpty then "Unknown"
    else String.intercalate ", " (s2AuthorNames paper)
  | _ => "Unknown"

/-- pickBestOpenAlexPdf from the adapter module: the pdf link of the
best open-access location, or its alternate field, or null. -/
def pickBestOpenAlexPdf (work : JsVal) : JsVal :=
  jsOr (jsOr (jsOr (jsGet (jsGet work "best_oa_location") "pdf_url")
    (jsGet (jsGet work "best_oa_location") "url_for_pdf")) JsVal.null) JsVal.null

/-- An Option String result rendered back as a JavaScript value, as the
return value of openAlexAbstractToText is seen by its caller. -/
def optToJs : Option String → JsVal
  | some s => JsVal.str s
  | none => JsVal.null

/-- The per-item normalization body of searchOpenAlex: the map over the
results array of the response. -/
def normalizeOpenAlexWork (topic : String) (work : JsVal) : NormalizedPaper :=
  { id := jsGet work "id"
    title := jsOr (jsGet work "title") (JsVal.str "No title")
    authors := JsVal.str (normalizeAuthorsOpenAlex work)
    year := jsOr (jsGet work "publication_year") (JsVal.str "N/A")
    abstract := jsOr (optToJs (openAlexAbstractToText (jsGet work "abstract_inverted_index") 1200))
      (JsVal.str "No abstract available")
    citations := jsOr (jsGet work "cited_by_count") (JsVal.num 0)
    url := jsOr (jsOr (jsGet (jsGet work "primary_location") "landing_page_url")
      (jsGet work "id")) (JsVal.str "#")
    pdfUrl := pickBestOpenAlexPdf work
    venue := jsOr (jsOr (jsGet (jsGet work "host_venue") "display_name")
      (jsGet (jsGet (jsGet work "primary_location") "source") "display_name"))
      (JsVal.str "Unknown venue")
    topic := JsVal.str topic
    source := JsVal.str "OpenAlex"
    externalId := jsGet work "id"
    needsDetails := JsVal.bool false }

/-- The substring call on the optional publication date: the optional
chain passes undefined through for null and undefined, takes the first
four characters of a string, and throws a TypeError on any other value
(modelled as none). -/
def jsSubstring04 : JsVal → Option JsVal
  | JsVal.undef => some JsVal.undef
  | JsVal.null => some JsVal.undef
  | JsVal.str s => some (JsVal.str (s.take 4))
  | _ => none

/-- The year expression of the Semantic Scholar normalization: the year
field when truthy, else the first four characters of the publication
date, else the N/A fallback; the or-chain short-circuits, so the
substring access is only evaluated when the year field is falsy. -/
def s2Year (paper : JsVal) : Option JsVal :=
  if jsTruthy (jsGet paper "year") then some (jsGet paper "year")
  else
    match jsSubstring04 (jsGet paper "publicationDate") with
    | none => none
    | some sub => some (jsOr sub (JsVal.str "N/A"))

/-- The per-item normalization body of searchSemanticScholar: the map
over the data array of the response; none models the thrown TypeError
when the publication date is read while being neither nullish nor a
string. -/
def normalizeSemanticScholarPaper (topic : String) (paper : JsVal) :
    Option NormalizedPaper :=
  match s2Year paper with
  | none => none
  | some yr =>
    some
      { id := jsGet paper "paperId"
        title := jsOr (jsGet paper "title") (JsVal.str "No title")
        authors := JsVal.str (normalizeAuthorsS2 paper)
        year := yr
        abstract := JsVal.str "Loading abstract…"
        citations := jsOr (jsGet paper "citationCount") (JsVal.num 0)
        url := jsOr (jsGet paper "url") (JsVal.str "#")
        pdfUrl := jsOr (jsGet (jsGet paper "openAccessPdf") "url") JsVal.null
        venue := jsOr (jsGet paper "venue") (JsVal.str "Unknown venue")
        topic := JsVal.str topic
        source := JsVal.str "Semantic Scholar"
        externalId := jsGet paper "paperId"
        needsDetails := JsVal.bool true }

/-- Result shape of the Semantic Scholar bulk search after the response
body has been parsed. -/
structure S2SearchResult : Type where
  papers : List NormalizedPaper
  nextOffset : Int
  hasMore : Bool

/-- The pure tail of searchSemanticScholar: normalize every item of the
data array, then infer pagination: nextOffset is the requested offset
plus the requested limit, and hasMore holds exactly when the number of
returned items equals the requested limit. None models a normalization
throw surfacing as a failed search. -/
def searchSemanticScholarPure (topic : String) (limit offset : Int)
    (results : List JsVal) : Option S2SearchResult :=
  match results.mapM (normalizeSemanticScholarPaper topic) with
  | none => none
  | some ps => some ⟨ps, offset + limit, (results.length : Int) == limit⟩

/-! ### Definedness helpers -/

theorem str_defined (s : String) : jsDefined (JsVal.str s) := fun h => JsVal.noConfusion h

theorem num_defined (n : Int) : jsDefined (JsVal.num n) := fun h => JsVal.noConfusion h

theorem bool_defined (b : Bool) : jsDefined (JsVal.bool b) := fun h => JsVal.noConfusion h

theorem null_defined : jsDefined JsVal.null := fun h => JsVal.noConfusion h

theorem jsTruthy_defined (a : JsVal) (h : jsTruthy a = true) : jsDefined a := by
  intro heq
  rw [heq] at h
  exact absurd h (by decide)

theorem jsOr_defined (a b : JsVal) (hb : jsDefined b) : jsDefined (jsOr a b) := by
  unfold jsOr
  by_cases h : jsTruthy a = true
  · rw [if_pos h]
    exact jsTruthy_defined a h
  · rw [if_neg h]
    exact hb

theorem s2Year_defined (paper : JsVal) (yr : JsVal) (h : s2Year paper = some yr) :
    jsDefined yr := by
  unfold s2Year at h
  by_cases hy : jsTruthy (jsGet paper "year") = true
  · rw [if_pos hy] at h
    exact (Option.some.inj h) ▸ jsTruthy_defined _ hy
  · rw [if_neg hy] at h
    cases hsub : jsSubstring04 (jsGet paper "publicationDate") with
    | none => rw [hsub] at h; cases h
    | some sub =>
      rw [hsub] at h
      exact (Option.some.inj h) ▸ jsOr_defined sub (JsVal.str "N/A") (str_defined _)

/-! ### Claim C4: normalization definedness (corrected: no id fallback) -/

/-- C4 counterexample: a provider item with no id at all (the empty
object) yields a normalized record whose id field is undefined, in both
adapters; the source assigns the raw id field without any fallback. -/
theorem C4_normalization_counterexample :
    (normalizeOpenAlexWork "machine learning" (JsVal.obj [])).id = JsVal.undef
    ∧ (normalizeSemanticScholarPaper "machine learning" (JsVal.obj [])).map
        NormalizedPaper.id = some JsVal.undef :=
  ⟨rfl, rfl⟩

/-- C4 (amended): every field of a normalized record other than id and
externalId is defined for every provider item (for the Semantic Scholar
adapter, for every item whose normalization completes); id and
externalId are copied verbatim from the provider id field and are
undefined exactly when the item lacks one. -/
theorem C4_normalization_definedness :
    (∀ (topic : String) (work : JsVal),
        jsDefined (normalizeOpenAlexWork topic work).title
        ∧ jsDefined (normalizeOpenAlexWork topic work).authors
        ∧ jsDefined (normalizeOpenAlexWork topic work).year
        ∧ jsDefined (normalizeOpenAlexWork topic work).abstract
        ∧ jsDefined (normalizeOpenAlexWork topic work).citations
        ∧ jsDefined (normalizeOpenAlexWork topic work).url
        ∧ jsDefined (normalizeOpenAlexWork topic work).pdfUrl
        ∧ jsDefined (normalizeOpenAlexWork topic work).venue
        ∧ jsDefined (normalizeOpenAlexWork topic work).topic
        ∧ jsDefined (normalizeOpenAlexWork topic work).source
        ∧ jsDefined (normalizeOpenAlexWork topic work).needsDetails
        ∧ (normalizeOpenAlexWork topic work).id = jsGet work "id"
        ∧ (normalizeOpenAlexWork topic work).externalId = jsGet work "id")
    ∧ (∀ (topic : String) (paper : JsVal) (np : NormalizedPaper),
        normalizeSemanticScholarPaper topic paper = some np →
        jsDefined np.title ∧ jsDefined np.authors ∧ jsDefined np.year
        ∧ jsDefined np.abstract ∧ jsDefined np.citations ∧ jsDefined np.url
        ∧ jsDefined np.pdfUrl ∧ jsDefined np.venue ∧ jsDefined np.topic
        ∧ jsDefined np.source ∧ jsDefined np.needsDetails
        ∧ np.id = jsGet paper "paperId" ∧ np.externalId = jsGet paper "paperId") := by
  constructor
  · intro topic work
    exact ⟨jsOr_defined _ _ (str_defined _), str_defined _,
      jsOr_defined _ _ (str_defined _), jsOr_defined _ _ (str_defined _),
      jsOr_defined _ _ (num_defined 0), jsOr_defined _ _ (str_defined _),
      jsOr_defined _ _ null_defined, jsOr_defined _ _ (str_defined _),
      str_defined _, str_defined _, bool_defined _, rfl, rfl⟩
  · intro topic paper np h
    unfold normalizeSemanticScholarPaper at h
    cases hy : s2Year paper with
    | none => rw [hy] at h; cases h
    | some yr =>
      rw [hy] at h
      have hnp := Option.some.inj h
      subst hnp
      exact ⟨jsOr_defined _ _ (str_defined _), str_defined _, s2Year_defined paper yr hy,
        str_defined _, jsOr_defined _ _ (num_defined 0), jsOr_defined _ _ (str_defined _),
        jsOr_defined _ _ null_defined, jsOr_defined _ _ (str_defined _),
        str_defined _, str_defined _, bool_defined _, rfl, rfl⟩

/-- The Semantic Scholar normalization of the empty provider item,
written out. -/
def s2EmptyNorm : NormalizedPaper :=
  { id := JsVal.undef
    title := JsVal.str "No title"
    authors := JsVal.str "Unknown"
    year := JsVal.str "N/A"
    abstract := JsVal.str "Loading abstract…"
    citations := JsVal.num 0
    url := JsVal.str "#"
    pdfUrl := JsVal.null
    venue := JsVal.str "Unknown venue"
    topic := JsVal.str "t"
    source := JsVal.str "Semantic Scholar"
    externalId := JsVal.undef
    needsDetails := JsVal.bool true }

/-- Witness for C4: the Semantic Scholar branch applied to the empty
item, whose normalization completes with the record written above. -/
theorem C4_normalization_definedness_witness :
    normalizeSemanticScholarPaper "t" (JsVal.obj []) = some s2EmptyNorm
    ∧ (jsDefined s2EmptyNorm.title ∧ jsDefined s2EmptyNorm.authors
        ∧ jsDefined s2EmptyNorm.year ∧ jsDefined s2EmptyNorm.abstract
        ∧ jsDefined s2EmptyNorm.citations ∧ jsDefined s2EmptyNorm.url
        ∧ jsDefined s2EmptyNorm.pdfUrl ∧ jsDefined s2EmptyNorm.venue
        ∧ jsDefined s2EmptyNorm.topic ∧ jsDefined s2EmptyNorm.source
        ∧ jsDefined s2EmptyNorm.needsDetails
        ∧ s2EmptyNorm.id = jsGet (JsVal.obj []) "paperId"
        ∧ s2EmptyNorm.externalId = jsGet (JsVal.obj []) "paperId") :=
  ⟨rfl, C4_normalization_definedness.2 "t" (JsVal.obj []) s2EmptyNorm rfl⟩

/-! ### Claim C8: normalization fallbacks and the author cap -/

theorem oaAuthorNames_le (work : JsVal) : (oaAuthorNames work).length ≤ 10 := by
  cases h : jsGet work "authorships" <;> simp [oaAuthorNames, h]

theorem s2AuthorNames_le (paper : JsVal) : (s2AuthorNames paper).length ≤ 10 := by
  cases h : jsGet paper "authors" <;> simp [s2AuthorNames, h]

theorem normalizeAuthorsOpenAlex_shape (work : JsVal) :
    normalizeAuthorsOpenAlex work = "Unknown"
    ∨ normalizeAuthorsOpenAlex work = String.intercalate ", " (oaAuthorNames work) := by
  cases h : jsGet work "authorships" with
  | arr as =>
    by_cases h1 : as.isEmpty
    · left; simp [normalizeAuthorsOpenAlex, h, h1]
    · by_cases h2 : (oaAuthorNames work).isEmpty
      · left; simp [normalizeAuthorsOpenAlex, h, h1, h2]
      · right; simp [normalizeAuthorsOpenAlex, h, h1, h2]
  | undef => left; simp [normalizeAuthorsOpenAlex, h]
  | null => left; simp [normalizeAuthorsOpenAlex, h]
  | bool b => left; simp [normalizeAuthorsOpenAlex, h]
  | num n => left; simp [normalizeAuthorsOpenAlex, h]
  | str s => left; simp [normalizeAuthorsOpenAlex, h]
  | obj fs => left; simp [normalizeAuthorsOpenAlex, h]

theorem normalizeAuthorsS2_shape (paper : JsVal) :
    normalizeAuthorsS2 paper = "Unknown"
    ∨ normalizeAuthorsS2 paper = String.intercalate ", " (s2AuthorNames paper) := by
  cases h : jsGet paper "authors" with
  | arr as =>
    by_cases h1 : as.isEmpty
    · left; simp [normalizeAuthorsS2, h, h1]
    · by_cases h2 : (s2AuthorNames paper).isEmpty
      · left; simp [normalizeAuthorsS2, h, h1, h2]
      · right; simp [normalizeAuthorsS2, h, h1, h2]
  | undef => left; simp [normalizeAuthorsS2, h]
  | null => left; simp [normalizeAuthorsS2, h]
  | bool b => left; simp [normalizeAuthorsS2, h]
  | num n => left; simp [normalizeAuthorsS2, h]
  | str s => left; simp [normalizeAuthorsS2, h]
  | obj fs => left; simp [normalizeAuthorsS2, h]

/-- C8: a provider item with no authors normalizes to the Unknown
authors fallback, one with no venue fields to the Unknown venue
fallback, one with no year to the N/A fallback (for Semantic Scholar,
with no publication date either), and for every item the joined authors
string is either Unknown or the join of at most 10 names. -/
theorem C8_normalization_fallbacks :
    (∀ work : JsVal, jsGet work "authorships" = JsVal.undef →
        normalizeAuthorsOpenAlex work = "Unknown")
    ∧ (∀ paper : JsVal, jsGet paper "authors" = JsVal.undef →
        normalizeAuthorsS2 paper = "Unknown")
    ∧ (∀ (topic : String) (work : JsVal),
        jsGet (jsGet work "host_venue") "display_name" = JsVal.undef →
        jsGet (jsGet (jsGet work "primary_location") "source") "display_name" = JsVal.undef →
        (normalizeOpenAlexWork topic work).venue = JsVal.str "Unknown venue")
    ∧ (∀ (topic : String) (paper : JsVal) (np : NormalizedPaper),
        normalizeSemanticScholarPaper topic paper = some np →
        jsGet paper "venue" = JsVal.undef → np.venue = JsVal.str "Unknown venue")
    ∧ (∀ (topic : String) (work : JsVal), jsGet work "publication_year" = JsVal.undef →
        (normalizeOpenAlexWork topic work).year = JsVal.str "N/A")
    ∧ (∀ (topic : String) (paper : JsVal) (np : NormalizedPaper),
        normalizeSemanticScholarPaper topic paper = some np →
        jsGet paper "year" = JsVal.undef → jsGet paper "publicationDate" = JsVal.undef →
        np.year = JsVal.str "N/A")
    ∧ (∀ work : JsVal, (oaAuthorNames work).length ≤ 10
        ∧ (normalizeAuthorsOpenAlex work = "Unknown"
           ∨ normalizeAuthorsOpenAlex work = String.intercalate ", " (oaAuthorNames work)))
    ∧ (∀ paper : JsVal, (s2AuthorNames paper).length ≤ 10
        ∧ (normalizeAuthorsS2 paper = "Unknown"
           ∨ normalizeAuthorsS2 paper = String.intercalate ", " (s2AuthorNames paper))) := by
  refine ⟨?_, ?_, ?_, ?_, ?_, ?_, ?_, ?_⟩
  · intro work h
    simp [normalizeAuthorsOpenAlex, h]
  · intro paper h
    simp [normalizeAuthorsS2, h]
  · intro topic work h1 h2
    simp [normalizeOpenAlexWork, jsOr, h1, h2, jsTruthy]
  · intro topic paper np h hv
    unfold normalizeSemanticScholarPaper at h
    cases hy : s2Year paper with
    | none => rw [hy] at h; cases h
    | some yr =>
      rw [hy] at h
      have hnp := Option.some.inj h
      subst hnp
      simp [jsOr, hv, jsTruthy]
  · intro topic work h
    simp [normalizeOpenAlexWork, jsOr, h, jsTruthy]
  · intro topic paper np h hy hd
    unfold normalizeSemanticScholarPaper at h
    cases hyr : s2Year paper with
    | none => rw [hyr] at h; cases h
    | some yr =>
      rw [hyr] at h
      have hnp := Option.some.inj h
      subst hnp
      unfold s2Year at hyr
      rw [hy] at hyr
      simp only [jsTruthy, if_neg] at hyr
      rw [hd] at hyr
      simp only [jsSubstring04] at hyr
      have hyr2 : jsOr JsVal.undef (JsVal.str "N/A") = yr := Option.some.inj hyr
      show yr = JsVal.str "N/A"
      rw [← hyr2]
      rfl
  · intro work
    exact ⟨oaAuthorNames_le work, normalizeAuthorsOpenAlex_shape work⟩
  · intro paper
    exact ⟨s2AuthorNames_le paper, normalizeAuthorsS2_shape paper⟩

/-- Witness for C8: every fallback evaluated at the empty provider item,
and at an item with 12 authors whose joined string keeps 10 names. -/
theorem C8_normalization_fallbacks_witness :
    normalizeAuthorsOpenAlex (JsVal.obj []) = "Unknown"
    ∧ normalizeAuthorsS2 (JsVal.obj []) = "Unknown"
    ∧ (normalizeOpenAlexWork "t" (JsVal.obj [])).venue = JsVal.str "Unknown venue"
    ∧ (normalizeOpenAlexWork "t" (JsVal.obj [])).year = JsVal.str "N/A"
    ∧ normalizeSemanticScholarPaper "t" (JsVal.obj []) = some s2EmptyNorm
    ∧ s2EmptyNorm.venue = JsVal.str "Unknown venue"
    ∧ s2EmptyNorm.year = JsVal.str "N/A" := by
  refine ⟨C8_normalization_fallbacks.1 (JsVal.obj []) rfl,
    C8_normalization_fallbacks.2.1 (JsVal.obj []) rfl,
    C8_normalization_fallbacks.2.2.1 "t" (JsVal.obj []) rfl rfl,
    C8_normalization_fallbacks.2.2.2.2.1 "t" (JsVal.obj []) rfl,
    rfl,
    C8_normalization_fallbacks.2.2.2.1 "t" (JsVal.obj []) s2EmptyNorm rfl rfl,
    C8_normalization_fallbacks.2.2.2.2.2.1 "t" (JsVal.obj []) s2EmptyNorm rfl rfl rfl⟩

/-! ### Claim C6: Semantic Scholar pagination inference -/

/-- C6: for every parsed Semantic Scholar bulk response, hasMore holds
exactly when the number of returned items equals the requested limit,
and nextOffset is the requested offset plus the requested limit. -/
theorem C6_s2_pagination :
    ∀ (topic : String) (limit offset : Int) (results : List JsVal) (out : S2SearchResult),
      searchSemanticScholarPure topic limit offset results = some out →
      (out.hasMore = true ↔ (results.length : Int) = limit)
      ∧ out.hasMore = ((results.length : Int) == limit)
      ∧ out.nextOffset = offset + limit := by
  intro topic limit offset results out h
  unfold searchSemanticScholarPure at h
  cases hm : results.mapM (normalizeSemanticScholarPaper topic) with
  | none => rw [hm] at h; cases h
  | some ps =>
    rw [hm] at h
    have hout := Option.some.inj h
    subst hout
    exact ⟨by simp, rfl, rfl⟩

/-- Witness for C6: an empty response at limit 20 and offset 0. -/
theorem C6_s2_pagination_witness :
    ((⟨[], 20, false⟩ : S2SearchResult).hasMore = true ↔ (([] : List JsVal).length : Int) = 20)
    ∧ (⟨[], 20, false⟩ : S2SearchResult).hasMore = ((([] : List JsVal).length : Int) == 20)
    ∧ (⟨[], 20, false⟩ : S2SearchResult).nextOffset = 0 + 20 :=
  C6_s2_pagination "graph theory" 20 0 [] ⟨[], 20, false⟩ rfl

/-! ### Orchestrator model (App.jsx)

The orchestrator treats paper records opaquely, so its model is
parametric in the paper type P. A run of an async function is modelled
by passing in the outcome of each awaited provider call: an outcome is
either a page or a thrown error, and a fetch whose abort signal fired
rejects with the abort error. State updates are sequential, mirroring
the single-threaded event loop. Each run also returns the list of
provider calls it issued and the list of blocking alerts it showed. -/

/-- Error identity as observed through the name check of the source:
the abort rejection versus any other thrown error. -/
inductive JsErr : Type where
  | abortError : JsErr
  | httpError : JsErr
deriving DecidableEq

/-- A provider call issued by the orchestrator. -/
inductive PCall : Type where
  | openAlexCall : PCall
  | semanticScholarCall : PCall
deriving DecidableEq

/-- The resolved value of a searchOpenAlex call. -/
structure OAPage (P : Type) : Type where
  papers : List P
  nextCursor : Option String

/-- The resolved value of a searchSemanticScholar call. -/
structure S2Page (P : Type) : Type where
  papers : List P
  nextOffset : Int
  hasMore : Bool

/-- A stored cache entry: the payload fields of writeCache plus the
timestamp stamped at write time. -/
structure CacheEntry (P : Type) : Type where
  ts : Int
  papers : List P
  provider : String
  nextCursor : Option String
  nextOffset : Int
  hasMore : Bool

/-- The payload handed to writeCache. -/
structure CachePayload (P : Type) : Type where
  papers : List P
  provider : String
  nextCursor : Option String
  nextOffset : Int
  hasMore : Bool

/-- cacheKeyFor from App.jsx: the storage namespace followed by the
lowercased topic. -/
def cacheKeyFor (topic : String) : String := "rsp_search_v1:" ++ topic.toLower

/-- localStorage.setItem over the modelled store: the key is bound to
the new value, any earlier binding is dropped. -/
def storeSet {P : Type} (store : List (String × CacheEntry P)) (k : String)
    (e : CacheEntry P) : List (String × CacheEntry P) :=
  (k, e) :: store.filter (fun q => !(q.1 == k))

/-- localStorage.getItem over the modelled store. -/
def storeGet {P : Type} (store : List (String × CacheEntry P)) (k : String) :
    Option (CacheEntry P) :=
  (store.find? (fun q => q.1 == k)).map (fun q => q.2)

/-- readCache from App.jsx evaluated at time now: absent when the key is
missing, when the stored timestamp is falsy, or when the entry is older
than 24 hours (86400000 milliseconds); otherwise the parsed entry. -/
def readCache {P : Type} (now : Int) (store : List (String × CacheEntry P))
    (topic : String) : Option (CacheEntry P) :=
  match storeGet store (cacheKeyFor topic) with
  | none => none
  | some e => if e.ts = 0 then none else if now - e.ts > 86400000 then none else some e

/-- writeCache from App.jsx evaluated at time now: overwrites the entry
for the topic unconditionally, stamping the current time. -/
def writeCache {P : Type} (now : Int) (store : List (String × CacheEntry P))
    (topic : String) (pl : CachePayload P) : List (String × CacheEntry P) :=
  storeSet store (cacheKeyFor topic)
    ⟨now, pl.papers, pl.provider, pl.nextCursor, pl.nextOffset, pl.hasMore⟩

/-- The shared state of the App component that the search orchestration
reads and writes, plus the modelled wall clock and the presence of the
abort controller reference. -/
structure AppState (P : Type) : Type where
  papers : List P
  currentIndex : Int
  currentTopic : String
  isLoading : Bool
  loadHint : String
  provider : String
  nextCursor : Option String
  nextOffset : Int
  hasMore : Bool
  isPrefetching : Bool
  cache : List (String × CacheEntry P)
  hasController : Bool
  now : Int

/-- Truthiness of the cursor value as the source tests it. -/
def optStrTruthy : Option String → Bool
  | none => false
  | some s => s != ""

/-- The nc-or-null pattern applied to a cursor before storing it. -/
def optStrOrNull (o : Option String) : Option String :=
  if optStrTruthy o then o else none

/-- Outcome of a run of an orchestrator function: the final state, the
provider calls issued, and the blocking alerts shown. -/
structure RunOut (P : Type) : Type where
  state : AppState P
  calls : List PCall
  alerts : List String

/-- The finally block of searchPapers: clear the loading flag and hint. -/
def searchFinally {P : Type} (st : AppState P) : AppState P :=
  { st with isLoading := false, loadHint := "" }

/-- The Semantic Scholar fallback arm of searchPapers (the body of the
inner catch): record the provider, await the fallback search, and on
success either alert on an empty result or commit papers, pagination
and cache; a thrown abort error reaches the outer catch and is
swallowed, any other error alerts. -/
def s2FallbackRun {P : Type} (topic : String) (s2Out : Except JsErr (S2Page P))
    (st : AppState P) (calls : List PCall) : RunOut P :=
  let st1 : AppState P := { st with provider := "Semantic Scholar" }
  let calls1 := calls ++ [PCall.semanticScholarCall]
  match s2Out with
  | Except.error JsErr.abortError => ⟨searchFinally st1, calls1, []⟩
  | Except.error JsErr.httpError =>
    ⟨searchFinally st1, calls1, ["Failed to load papers. Please try again."]⟩
  | Except.ok pg =>
    if pg.papers.isEmpty then
      ⟨searchFinally st1, calls1, ["No papers found for this topic"]⟩
    else
      let st2 : AppState P :=
        { st1 with papers := pg.papers, nextOffset := pg.nextOffset,
                   hasMore := pg.hasMore, nextCursor := some "*" }
      let payload : CachePayload P :=
        ⟨pg.papers, "Semantic Scholar", some "*", pg.nextOffset, pg.hasMore⟩
      let st3 : AppState P :=
        { st2 with cache := writeCache st2.now st2.cache topic payload }
      ⟨searchFinally st3, calls1, []⟩

/-- The network phase of searchPapers (the outer try block onward),
entered after the synchronous prologue has reset the list and seeded the
cache: record OpenAlex as the provider, await the primary search, and on
a non-empty result commit papers, pagination and cache; an empty result
or any thrown error, the abort rejection included, falls into the inner
catch and runs the Semantic Scholar fallback arm. -/
def searchPapersNetRun {P : Type} (topic : String) (oaOut : Except JsErr (OAPage P))
    (s2Out : Except JsErr (S2Page P)) (st : AppState P) : RunOut P :=
  let st1 : AppState P := { st with provider := "OpenAlex" }
  let calls1 := [PCall.openAlexCall]
  match oaOut with
  | Except.error _ => s2FallbackRun topic s2Out st1 calls1
  | Except.ok pg =>
    if pg.papers.isEmpty then s2FallbackRun topic s2Out st1 calls1
    else
      let st2 : AppState P :=
        { st1 with papers := pg.papers, nextCursor := optStrOrNull pg.nextCursor,
                   hasMore := optStrTruthy pg.nextCursor, nextOffset := 0 }
      let payload : CachePayload P :=
        ⟨pg.papers, "OpenAlex", optStrOrNull pg.nextCursor, 0, optStrTruthy pg.nextCursor⟩
      let st3 : AppState P :=
        { st2 with cache := writeCache st2.now st2.cache topic payload }
      ⟨searchFinally st3, calls1, []⟩

/-- The finally block of prefetchMore: clear the prefetch flag. -/
def prefetchFinally {P : Type} (st : AppState P) : AppState P :=
  { st with isPrefetching := false }

/-- prefetchMore from App.jsx: returns immediately when a prefetch is in
flight or no further page is known, and when no controller exists;
otherwise sets the prefetch flag, requests the next page from the
provider of the current session, appends a non-empty result to the list
and merges it into the cache, updates pagination, and clears the flag in
the finally block; errors are logged and ignored. -/
def prefetchMoreRun {P : Type} (oaOut : Except JsErr (OAPage P))
    (s2Out : Except JsErr (S2Page P)) (st : AppState P) : AppState P × List PCall :=
  if st.isPrefetching || !st.hasMore then (st, [])
  else if !st.hasController then (st, [])
  else
    let topic := st.currentTopic
    let st1 : AppState P := { st with isPrefetching := true }
    if st1.provider == "OpenAlex" then
      if !(optStrTruthy st1.nextCursor) then (prefetchFinally st1, [])
      else
        match oaOut with
        | Except.error _ => (prefetchFinally st1, [PCall.openAlexCall])
        | Except.ok pg =>
          let merged := st1.papers ++ pg.papers
          let payload : CachePayload P :=
            ⟨merged, "OpenAlex", optStrOrNull pg.nextCursor, 0, optStrTruthy pg.nextCursor⟩
          let st2 : AppState P :=
            if pg.papers.isEmpty then st1
            else { st1 with papers := merged,
                            cache := writeCache st1.now st1.cache topic payload }
          let st3 : AppState P :=
            { st2 with nextCursor := optStrOrNull pg.nextCursor,
                       hasMore := optStrTruthy pg.nextCursor }
          (prefetchFinally st3, [PCall.openAlexCall])
    else
      match s2Out with
      | Except.error _ => (prefetchFinally st1, [PCall.semanticScholarCall])
      | Except.ok pg =>
        let merged := st1.papers ++ pg.papers
        let payload : CachePayload P :=
          ⟨merged, "Semantic Scholar", some "*", pg.nextOffset, pg.hasMore⟩
        let st2 : AppState P :=
          if pg.papers.isEmpty then st1
          else { st1 with papers := merged,
                          cache := writeCache st1.now st1.cache topic payload }
        let st3 : AppState P :=
          { st2 with nextOffset := pg.nextOffset, hasMore := pg.hasMore }
        (prefetchFinally st3, [PCall.semanticScholarCall])

/-- The automatic prefetch trigger effect: when more pages are known and
the number of unconsumed loaded records is at most 6, invoke
prefetchMore; otherwise do nothing. -/
def triggerPrefetchRun {P : Type} (oaOut : Except JsErr (OAPage P))
    (s2Out : Except JsErr (S2Page P)) (st : AppState P) : AppState P × List PCall :=
  if !st.hasMore then (st, [])
  else if (st.papers.length : Int) - st.currentIndex ≤ 6 then prefetchMoreRun oaOut s2Out st
  else (st, [])

/-! ### Claim C7: cache freshness -/

theorem storeGet_storeSet {P : Type} (store : List (String × CacheEntry P)) (k : String)
    (e : CacheEntry P) : storeGet (storeSet store k e) k = some e := by
  simp [storeGet, storeSet, List.find?]

/-- C7: an entry written for a topic at a positive time tW is returned
by readCache at every read time strictly before tW plus 24 hours, and is
treated as absent at every read time strictly after tW plus 24 hours.
(A stored timestamp of 0 is falsy in the source and would be treated as
a parse failure; write times are positive epoch milliseconds.) -/
theorem C7_cache_freshness :
    ∀ (P : Type) (store : List (String × CacheEntry P)) (topic : String)
      (pl : CachePayload P) (tW now : Int), 0 < tW →
      ((now < tW + 86400000 →
          readCache now (writeCache tW store topic pl) topic =
            some ⟨tW, pl.papers, pl.provider, pl.nextCursor, pl.nextOffset, pl.hasMore⟩)
       ∧ (tW + 86400000 < now →
          readCache now (writeCache tW store topic pl) topic = none)) := by
  intro P store topic pl tW now htW
  have hget : storeGet (writeCache tW store topic pl) (cacheKeyFor topic) =
      some ⟨tW, pl.papers, pl.provider, pl.nextCursor, pl.nextOffset, pl.hasMore⟩ :=
    storeGet_storeSet store (cacheKeyFor topic) _
  constructor
  · intro hlt
    simp only [readCache, hget]
    rw [if_neg (by omega), if_neg (by omega)]
  · intro hgt
    simp only [readCache, hget]
    rw [if_neg (by omega), if_pos (by omega)]

/-- Witness for C7: an entry written at epoch time 1700000000000 is
still served 23 hours 59 minutes later and is absent 24 hours 1 minute
later. -/
theorem C7_cache_freshness_witness :
    readCache (1700000000000 + 86340000)
        (writeCache 1700000000000 ([] : List (String × CacheEntry Nat)) "machine learning"
          ⟨[7], "OpenAlex", none, 0, false⟩) "machine learning" =
      some ⟨1700000000000, [7], "OpenAlex", none, 0, false⟩
    ∧ readCache (1700000000000 + 86460000)
        (writeCache 1700000000000 ([] : List (String × CacheEntry Nat)) "machine learning"
          ⟨[7], "OpenAlex", none, 0, false⟩) "machine learning" = none :=
  ⟨(C7_cache_freshness Nat [] "machine learning" ⟨[7], "OpenAlex", none, 0, false⟩
      1700000000000 (1700000000000 + 86340000) (by omega)).1 (by omega),
   (C7_cache_freshness Nat [] "machine learning" ⟨[7], "OpenAlex", none, 0, false⟩
      1700000000000 (1700000000000 + 86460000) (by omega)).2 (by omega)⟩

/-! ### Claim C9: prefetch guard and trigger -/

theorem prefetchMoreRun_noop {P : Type} (st : AppState P) (oaOut : Except JsErr (OAPage P))
    (s2Out : Except JsErr (S2Page P)) (h : st.isPrefetching = true ∨ st.hasMore = false) :
    prefetchMoreRun oaOut s2Out st = (st, []) := by
  have hc : (st.isPrefetching || !st.hasMore) = true := by
    rcases h with h | h <;> simp [h]
  unfold prefetchMoreRun
  rw [if_pos hc]

/-- The state of the prefetch-trigger scenario of the claim: 20 loaded
records, the current index at 14, more pages known, no prefetch in
flight, an OpenAlex session with a live cursor. -/
def prefetchSt20 : AppState Nat :=
  { papers := List.range 20
    currentIndex := 14
    currentTopic := "machine learning"
    isLoading := false
    loadHint := ""
    provider := "OpenAlex"
    nextCursor := some "cursorA"
    nextOffset := 0
    hasMore := true
    isPrefetching := false
    cache := []
    hasController := true
    now := 1700000000000 }

/-- The same session while the prefetch is in flight, at index 13. -/
def prefetchSt13 : AppState Nat :=
  { prefetchSt20 with currentIndex := 13, isPrefetching := true }

/-- C9: prefetchMore issues no request and changes nothing whenever a
prefetch is already in flight or no further page is known; the automatic
trigger does nothing while a prefetch is in flight; when more pages are
known, no prefetch is in flight, a controller exists, at most 6 loaded
records are unconsumed and (for an OpenAlex session) a cursor is live,
the trigger issues exactly one provider call; concretely, with 20 loaded
records moving the index to 14 triggers exactly one OpenAlex call, and
moving to 13 with the prefetch in flight triggers none. -/
theorem C9_prefetch_guard :
    (∀ (P : Type) (st : AppState P) (oaOut : Except JsErr (OAPage P))
        (s2Out : Except JsErr (S2Page P)),
        st.isPrefetching = true ∨ st.hasMore = false →
        prefetchMoreRun oaOut s2Out st = (st, []))
    ∧ (∀ (P : Type) (st : AppState P) (oaOut : Except JsErr (OAPage P))
        (s2Out : Except JsErr (S2Page P)),
        st.isPrefetching = true → triggerPrefetchRun oaOut s2Out st = (st, []))
    ∧ (∀ (P : Type) (st : AppState P) (oaOut : Except JsErr (OAPage P))
        (s2Out : Except JsErr (S2Page P)),
        st.hasMore = true → st.isPrefetching = false → st.hasController = true →
        (st.papers.length : Int) - st.currentIndex ≤ 6 →
        (st.provider = "OpenAlex" → optStrTruthy st.nextCursor = true) →
        (triggerPrefetchRun oaOut s2Out st).2.length = 1)
    ∧ (triggerPrefetchRun (Except.ok (⟨[100], some "cursorB"⟩ : OAPage Nat))
        (Except.ok (⟨[], 0, false⟩ : S2Page Nat)) prefetchSt20).2 = [PCall.openAlexCall]
    ∧ (triggerPrefetchRun (Except.ok (⟨[100], some "cursorB"⟩ : OAPage Nat))
        (Except.ok (⟨[], 0, false⟩ : S2Page Nat)) prefetchSt13).2 = [] := by
  refine ⟨fun P st oa s2 h => prefetchMoreRun_noop st oa s2 h, ?_, ?_, by decide, by decide⟩
  · intro P st oa s2 h
    unfold triggerPrefetchRun
    by_cases hm : st.hasMore
    · rw [if_neg (by simp [hm])]
      by_cases hle : (st.papers.length : Int) - st.currentIndex ≤ 6
      · rw [if_pos hle]
        exact prefetchMoreRun_noop st oa s2 (Or.inl h)
      · rw [if_neg hle]
    · rw [if_pos (by simp [hm])]
  · intro P st oa s2 hm hp hc hle hcur
    by_cases hprov : st.provider = "OpenAlex"
    · have hcur2 : optStrTruthy st.nextCursor = true := hcur hprov
      cases oa with
      | error e =>
        simp [triggerPrefetchRun, prefetchMoreRun, hm, hp, hc, hle, hprov, hcur2]
      | ok pg =>
        simp [triggerPrefetchRun, prefetchMoreRun, hm, hp, hc, hle, hprov, hcur2]
    · cases s2 with
      | error e =>
        simp [triggerPrefetchRun, prefetchMoreRun, hm, hp, hc, hle, beq_iff_eq, hprov]
      | ok pg =>
        simp [triggerPrefetchRun, prefetchMoreRun, hm, hp, hc, hle, beq_iff_eq, hprov]

/-- Witness for C9: the guard evaluated at the in-flight scenario state. -/
theorem C9_prefetch_guard_witness :
    prefetchMoreRun (Except.ok (⟨[100], some "cursorB"⟩ : OAPage Nat))
        (Except.ok (⟨[], 0, false⟩ : S2Page Nat)) prefetchSt13 = (prefetchSt13, []) :=
  C9_prefetch_guard.1 Nat prefetchSt13 _ _ (Or.inl rfl)

/-! ### Claim C3: cancellation is not atomic (the code mutates state) -/

/-- The state of a search session whose primary OpenAlex request is in
flight: the synchronous prologue of searchPapers has already run, the
provider reads OpenAlex, and the component awaits the fetch. -/
def appStDemo : AppState Nat :=
  { papers := []
    currentIndex := 0
    currentTopic := "machine learning"
    isLoading := true
    loadHint := "Fetching the best matches…"
    provider := "OpenAlex"
    nextCursor := some "*"
    nextOffset := 0
    hasMore := false
    isPrefetching := false
    cache := []
    hasController := true
    now := 1700000000000 }

/-- C3 evaluated at the failing input: when a new topic search aborts
the in-flight request, both fetches of the superseded invocation reject
with the abort error; the superseded invocation then surfaces no error,
and it leaves papers, pagination and cache untouched, but the inner
catch treats the abort rejection as an OpenAlex failure and records
Semantic Scholar as the provider (and the finally block clears the
loading flag), so the cancelled invocation does update shared state. -/
theorem C3_cancellation_not_atomic :
    (searchPapersNetRun "quantum computing" (Except.error JsErr.abortError)
        (Except.error JsErr.abortError) appStDemo).alerts = []
    ∧ appStDemo.provider = "OpenAlex"
    ∧ (searchPapersNetRun "quantum computing" (Except.error JsErr.abortError)
        (Except.error JsErr.abortError) appStDemo).state.provider = "Semantic Scholar"
    ∧ (searchPapersNetRun "quantum computing" (Except.error JsErr.abortError)
        (Except.error JsErr.abortError) appStDemo).state.provider ≠ appStDemo.provider
    ∧ (searchPapersNetRun "quantum computing" (Except.error JsErr.abortError)
        (Except.error JsErr.abortError) appStDemo).state.papers = appStDemo.papers
    ∧ (searchPapersNetRun "quantum computing" (Except.error JsErr.abortError)
        (Except.error JsErr.abortError) appStDemo).state.cache = appStDemo.cache
    ∧ (searchPapersNetRun "quantum computing" (Except.error JsErr.abortError)
        (Except.error JsErr.abortError) appStDemo).state.nextCursor = appStDemo.nextCursor
    ∧ (searchPapersNetRun "quantum computing" (Except.error JsErr.abortError)
        (Except.error JsErr.abortError) appStDemo).state.nextOffset = appStDemo.nextOffset
    ∧ (searchPapersNetRun "quantum computing" (Except.error JsErr.abortError)
        (Except.error JsErr.abortError) appStDemo).state.hasMore = appStDemo.hasMore
    ∧ (searchPapersNetRun "quantum computing" (Except.error JsErr.abortError)
        (Except.error JsErr.abortError) appStDemo).state.isLoading = false :=
  ⟨rfl, rfl, rfl, by decide, rfl, rfl, rfl, rfl, rfl, rfl⟩

/-! ### Claim C5: fallback to the second provider -/

/-- The OpenAlex outcomes that make searchPapers fall back: a thrown
non-abort error, or a resolved page with zero results (the source turns
the latter into a thrown error caught by the same inner catch). -/
def oaFailedOrEmpty {P : Type} (oaOut : Except JsErr (OAPage P)) : Prop :=
  oaOut = Except.error JsErr.httpError
  ∨ ∃ pg, oaOut = Except.ok pg ∧ pg.papers = []

/-- C5: whenever OpenAlex fails or returns zero results and the
Semantic Scholar fallback resolves, the run calls OpenAlex then
Semantic Scholar exactly once each, and the finally-observed provider is
Semantic Scholar; a non-empty fallback result populates the paper list
with no alert, and an empty fallback result shows the no-results alert
instead of crashing. -/
theorem C5_provider_fallback :
    ∀ (P : Type) (st : AppState P) (topic : String) (oaOut : Except JsErr (OAPage P))
      (s2pg : S2Page P), oaFailedOrEmpty oaOut →
      (searchPapersNetRun topic oaOut (Except.ok s2pg) st).calls =
        [PCall.openAlexCall, PCall.semanticScholarCall]
      ∧ (searchPapersNetRun topic oaOut (Except.ok s2pg) st).state.provider =
        "Semantic Scholar"
      ∧ (s2pg.papers ≠ [] →
          (searchPapersNetRun topic oaOut (Except.ok s2pg) st).state.papers = s2pg.papers
          ∧ (searchPapersNetRun topic oaOut (Except.ok s2pg) st).alerts = [])
      ∧ (s2pg.papers = [] →
          (searchPapersNetRun topic oaOut (Except.ok s2pg) st).alerts =
            ["No papers found for this topic"]) := by
  intro P st topic oaOut s2pg hfail
  have hrun : searchPapersNetRun topic oaOut (Except.ok s2pg) st =
      s2FallbackRun topic (Except.ok s2pg) { st with provider := "OpenAlex" }
        [PCall.openAlexCall] := by
    rcases hfail with h | ⟨pg, hok, hempty⟩
    · rw [h]
      rfl
    · rw [hok]
      simp [searchPapersNetRun, hempty]
  rw [hrun]
  by_cases hs2 : s2pg.papers.isEmpty
  · have hnil : s2pg.papers = [] := by
      cases hpp : s2pg.papers with
      | nil => rfl
      | cons a as => rw [hpp] at hs2; cases hs2
    refine ⟨by simp [s2FallbackRun, hs2], by simp [s2FallbackRun, hs2, searchFinally],
      fun hne => absurd hnil hne, fun _ => by simp [s2FallbackRun, hs2]⟩
  · refine ⟨by simp [s2FallbackRun, hs2], by simp [s2FallbackRun, hs2, searchFinally],
      fun _ => ⟨by simp [s2FallbackRun, hs2, searchFinally], by simp [s2FallbackRun, hs2]⟩,
      fun hnil => absurd (by rw [hnil]; rfl) hs2⟩

/-- Witness for C5: OpenAlex throws an HTTP error and the fallback
returns two papers. -/
theorem C5_provider_fallback_witness :
    (searchPapersNetRun "machine learning" (Except.error JsErr.httpError)
        (Except.ok (⟨[1, 2], 20, true⟩ : S2Page Nat)) appStDemo).calls =
      [PCall.openAlexCall, PCall.semanticScholarCall]
    ∧ (searchPapersNetRun "machine learning" (Except.error JsErr.httpError)
        (Except.ok (⟨[1, 2], 20, true⟩ : S2Page Nat)) appStDemo).state.provider =
      "Semantic Scholar"
    ∧ ((⟨[1, 2], 20, true⟩ : S2Page Nat).papers ≠ [] →
        (searchPapersNetRun "machine learning" (Except.error JsErr.httpError)
            (Except.ok (⟨[1, 2], 20, true⟩ : S2Page Nat)) appStDemo).state.papers =
          (⟨[1, 2], 20, true⟩ : S2Page Nat).papers
        ∧ (searchPapersNetRun "machine learning" (Except.error JsErr.httpError)
            (Except.ok (⟨[1, 2], 20, true⟩ : S2Page Nat)) appStDemo).alerts = [])
    ∧ ((⟨[1, 2], 20, true⟩ : S2Page Nat).papers = [] →
        (searchPapersNetRun "machine learning" (Except.error JsErr.httpError)
            (Except.ok (⟨[1, 2], 20, true⟩ : S2Page Nat)) appStDemo).alerts =
          ["No papers found for this topic"]) :=
  C5_provider_fallback Nat appStDemo "machine learning" (Except.error JsErr.httpError)
    ⟨[1, 2], 20, true⟩ (Or.inl rfl)
